import Mathlib

/-!
Verification of the request-signing proxy implemented in `vite.config.ts` of
the Ornata site repository.  The development shallowly embeds the proxy's
helpers (`md5Hex`, `buildUpgradeLinkSignature`, `normalizeEnvValue`,
`formatRfc3339Local`) and the two middleware handlers
(`upgradeLinkStatsProxy`, `upgradeLinkAppReportProxy`) as executable Lean
functions, and proves the specification claims about them.

Conventions of the embedding:
* JavaScript strings are Lean `String`s (lists of Unicode scalar values);
  machine-level concerns (UTF-16 lone surrogates) do not arise in the
  inputs the proxy handles.
* `process.env.X` values are `Option String` (`none` = variable unset).
* The external collaborators `fetch` and `JSON.parse` are parameters of the
  handlers: `fetch` is a function from the outbound request to
  `Except String UpstreamResponse` (a thrown exception is `.error msg`),
  `JSON.parse` is a function from the raw text to `Except String JsVal`.
* `new Date()` is an input (`JsDate`), `crypto.randomUUID()` is an input
  string.
-/

namespace Ornata

/-! ### JavaScript string primitives: whitespace, trim, case -/

/-- Code points matched by JavaScript `\s` and removed by `String.prototype.trim`
(WhiteSpace ∪ LineTerminator of ECMA-262). -/
def jsWsCodes : List Nat :=
  [9, 10, 11, 12, 13, 32, 160, 0x1680, 0x2000, 0x2001, 0x2002, 0x2003, 0x2004,
   0x2005, 0x2006, 0x2007, 0x2008, 0x2009, 0x200a, 0x2028, 0x2029, 0x202f,
   0x205f, 0x3000, 0xfeff]

def isJsWs (c : Char) : Bool := jsWsCodes.contains c.toNat

/-- ECMA-262 LineTerminator code points (never matched by `.` in a regex). -/
def isLineTerm (c : Char) : Bool := [10, 13, 0x2028, 0x2029].contains c.toNat

/-- `String.prototype.trim` on a list of characters. -/
def jsTrimL (l : List Char) : List Char :=
  List.rdropWhile isJsWs (List.dropWhile isJsWs l)

/-- `String.prototype.trim`. -/
def jsTrimStr (s : String) : String := String.mk (jsTrimL s.data)

/-- ASCII upper-casing, the fragment of `String.prototype.toUpperCase`
exercised by the proxy (method names). -/
def jsToUpperCase (s : String) : String := String.mk (s.data.map Char.toUpper)

/-! ### Credential normalization (`normalizeEnvValue`) -/

def isQuoteChar (c : Char) : Bool := c = '\x27' || c = '\x22'

/-- Semantics of the quote-stripping replace in `normalizeEnvValue` (the
global regex alternating an anchored leading quote with an anchored trailing
quote): one leading quote (single or double) is removed if present, and one
trailing quote is removed if present; the two removals are independent and
the quotes need not match. -/
def dropLeadingQuote (l : List Char) : List Char :=
  match l with
  | [] => []
  | c :: t => if isQuoteChar c then t else c :: t

def dropTrailingQuote (l : List Char) : List Char :=
  match l.reverse with
  | [] => []
  | c :: t => if isQuoteChar c then t.reverse else (c :: t).reverse

def stripQuotesJs (l : List Char) : List Char :=
  dropTrailingQuote (dropLeadingQuote l)

/-- The `\s*(.+)$` tail of the credential-key regex, with JavaScript
backtracking semantics: the greedy `\s*` yields the maximal whitespace
prefix for which `(.+)$` — one or more non-LineTerminator characters
reaching the end — still matches. Returns the capture of `(.+)`. -/
def regexValueTail (w : List Char) : Option (List Char) :=
  let r := w.dropWhile isJsWs
  if r.isEmpty then
    match w.reverse with
    | [] => none
    | c :: _ => if isLineTerm c then none else some [c]
  else if r.any isLineTerm then none else some r

/-- The keyword alternative `(AccessKey|SecretKey)` with the `i` flag:
consumes nine characters that case-fold to one of the keywords. -/
def regexKeyHead (l : List Char) : Option (List Char) :=
  let low := (l.take 9).map Char.toLower
  if low = "accesskey".data || low = "secretkey".data then some (l.drop 9)
  else none

/-- `strippedQuotes.match(/^(AccessKey|SecretKey)\s*=\s*(.+)$/i)`; returns the
second capture group when the whole string matches. -/
def regexKeyCapture (l : List Char) : Option (List Char) :=
  match regexKeyHead l with
  | none => none
  | some rest =>
    match rest.dropWhile isJsWs with
    | [] => none
    | c :: r2 => if c = '=' then regexValueTail r2 else none

/-- `normalizeEnvValue` from `vite.config.ts` (lines 23–29): trim, return ""
when empty, strip quotes, extract the value of an `AccessKey=`/`SecretKey=`
assignment when the text matches, and trim the result. -/
def normalizeEnvValue (raw : Option String) : String :=
  let value := jsTrimL (raw.getD "").data
  if value.isEmpty then ""
  else
    let strippedQuotes := stripQuotesJs value
    String.mk (jsTrimL ((regexKeyCapture strippedQuotes).getD strippedQuotes))

example : normalizeEnvValue (some " \x27AccessKey= abc123\x27 ") = "abc123" := by decide
example : normalizeEnvValue (some "\x22xyz\x22") = "xyz" := by decide
example : normalizeEnvValue (some "  ") = "" := by decide
example : normalizeEnvValue none = "" := by decide
example : normalizeEnvValue (some "secretKEY =top") = "top" := by decide
example : normalizeEnvValue (some "\x22abc") = "abc" := by decide

/-! ### Timestamp formatting (`formatRfc3339Local`) -/

/-- The observable fields of a JavaScript `Date` in local time, named after
the accessors the formatter calls: `month` is 0-based (as `getMonth`),
`timezoneOffset` is `getTimezoneOffset()` in minutes (UTC − local). -/
structure JsDate where
  fullYear : Nat
  month : Nat
  date : Nat
  hours : Nat
  minutes : Nat
  seconds : Nat
  timezoneOffset : Int

/-- `String(n).padStart(2, '0')` for a decimal-rendered natural number. -/
def pad2 (n : Nat) : String :=
  let s := toString n
  if s.length ≥ 2 then s else String.mk (List.replicate (2 - s.length) '0') ++ s

/-- `formatRfc3339Local` from `vite.config.ts` (lines 31–47). -/
def formatRfc3339Local (d : JsDate) : String :=
  let offsetMinutes : Int := -d.timezoneOffset
  let sign := if offsetMinutes ≥ 0 then "+" else "-"
  let abs := offsetMinutes.natAbs
  toString d.fullYear ++ "-" ++ pad2 (d.month + 1) ++ "-" ++ pad2 d.date ++
    "T" ++ pad2 d.hours ++ ":" ++ pad2 d.minutes ++ ":" ++ pad2 d.seconds ++
    sign ++ pad2 (abs / 60) ++ ":" ++ pad2 (abs % 60)

/-! ### MD5 (RFC 1321) over natural numbers reduced mod 2^32 -/

def hexLowerChars : List Char := "0123456789abcdef".data

def hexDigit (n : Nat) : Char := hexLowerChars.getD n '0'

/-- Two lowercase hex characters of a byte. -/
def byteHex (b : Nat) : List Char := [hexDigit (b / 16 % 16), hexDigit (b % 16)]

/-- UTF-8 encoding of one Unicode scalar value, as byte values. -/
def utf8EncodeCharNat (c : Char) : List Nat :=
  let n := c.toNat
  if n < 0x80 then [n]
  else if n < 0x800 then [0xC0 + n / 64, 0x80 + n % 64]
  else if n < 0x10000 then [0xE0 + n / 4096, 0x80 + n / 64 % 64, 0x80 + n % 64]
  else [0xF0 + n / 262144, 0x80 + n / 4096 % 64, 0x80 + n / 64 % 64, 0x80 + n % 64]

/-- UTF-8 bytes of a string. -/
def utf8Bytes (s : String) : List Nat := s.data.flatMap utf8EncodeCharNat

def md5K : List Nat :=
  [3614090360, 3905402710, 606105819, 3250441966, 4118548399, 1200080426, 2821735955, 4249261313,
   1770035416, 2336552879, 4294925233, 2304563134, 1804603682, 4254626195, 2792965006, 1236535329,
   4129170786, 3225465664, 643717713, 3921069994, 3593408605, 38016083, 3634488961, 3889429448,
   568446438, 3275163606, 4107603335, 1163531501, 2850285829, 4243563512, 1735328473, 2368359562,
   4294588738, 2272392833, 1839030562, 4259657740, 2763975236, 1272893353, 4139469664, 3200236656,
   681279174, 3936430074, 3572445317, 76029189, 3654602809, 3873151461, 530742520, 3299628645,
   4096336452, 1126891415, 2878612391, 4237533241, 1700485571, 2399980690, 4293915773, 2240044497,
   1873313359, 4264355552, 2734768916, 1309151649, 4149444226, 3174756917, 718787259, 3951481745]

def md5S : List Nat :=
  [7, 12, 17, 22, 7, 12, 17, 22, 7, 12, 17, 22, 7, 12, 17, 22,
   5, 9, 14, 20, 5, 9, 14, 20, 5, 9, 14, 20, 5, 9, 14, 20,
   4, 11, 16, 23, 4, 11, 16, 23, 4, 11, 16, 23, 4, 11, 16, 23,
   6, 10, 15, 21, 6, 10, 15, 21, 6, 10, 15, 21, 6, 10, 15, 21]

def not32 (x : Nat) : Nat := Nat.xor x 4294967295

def rotl32 (x n : Nat) : Nat := (x * 2 ^ n + x / 2 ^ (32 - n)) % 4294967296

/-- Little-endian 32-bit word from (up to) four bytes. -/
def wordOfBytesLE (bs : List Nat) : Nat :=
  bs.getD 0 0 + 256 * bs.getD 1 0 + 65536 * bs.getD 2 0 + 16777216 * bs.getD 3 0

/-- Four little-endian bytes of a 32-bit word. -/
def bytesOfWordLE (w : Nat) : List Nat :=
  [w % 256, w / 256 % 256, w / 65536 % 256, w / 16777216 % 256]

/-- One of the 64 MD5 operations on the state `(a, b, c, d)`. -/
def md5Step (M : List Nat) (st : Nat × Nat × Nat × Nat) (i : Nat) :
    Nat × Nat × Nat × Nat :=
  let (a, b, c, d) := st
  let fg : Nat × Nat :=
    if i < 16 then (Nat.lor (Nat.land b c) (Nat.land (not32 b) d), i)
    else if i < 32 then (Nat.lor (Nat.land d b) (Nat.land (not32 d) c), (5 * i + 1) % 16)
    else if i < 48 then (Nat.xor (Nat.xor b c) d, (3 * i + 5) % 16)
    else (Nat.xor c (Nat.lor b (not32 d)), (7 * i) % 16)
  let f := (fg.1 + a + md5K.getD i 0 + M.getD fg.2 0) % 4294967296
  (d, (b + rotl32 f (md5S.getD i 0)) % 4294967296, b, c)

/-- Process one 64-byte block. -/
def md5Block (st : Nat × Nat × Nat × Nat) (chunk : List Nat) :
    Nat × Nat × Nat × Nat :=
  let M := (List.range 16).map fun j => wordOfBytesLE ((chunk.drop (4 * j)).take 4)
  let r := (List.range 64).foldl (md5Step M) st
  ((st.1 + r.1) % 4294967296, (st.2.1 + r.2.1) % 4294967296,
   (st.2.2.1 + r.2.2.1) % 4294967296, (st.2.2.2 + r.2.2.2) % 4294967296)

/-- Split a byte list into 64-byte blocks. -/
def toBlocks (l : List Nat) : List (List Nat) :=
  (List.range ((l.length + 63) / 64)).map fun i => ((l.drop (64 * i)).take 64)

/-- Eight little-endian bytes of the 64-bit message bit length. -/
def bytesOfLen64LE (n : Nat) : List Nat :=
  [n % 256, n / 256 % 256, n / 65536 % 256, n / 16777216 % 256,
   n / 4294967296 % 256, n / 1099511627776 % 256,
   n / 281474976710656 % 256, n / 72057594037927936 % 256]

/-- RFC 1321 padding: a 1-bit, zeros to 56 mod 64, then the bit length. -/
def md5Pad (msg : List Nat) : List Nat :=
  let len := msg.length
  let zeros := (119 - len % 64) % 64
  msg ++ 128 :: List.replicate zeros 0 ++ bytesOfLen64LE (8 * len % 18446744073709551616)

/-- MD5 digest (16 bytes) of a byte message. -/
def md5Bytes (msg : List Nat) : List Nat :=
  let st := (toBlocks (md5Pad msg)).foldl md5Block
    (1732584193, 4023233417, 2562383102, 271733878)
  bytesOfWordLE st.1 ++ bytesOfWordLE st.2.1 ++ bytesOfWordLE st.2.2.1 ++
    bytesOfWordLE st.2.2.2

/-- `md5Hex` from `vite.config.ts` (lines 7–9): lowercase hexadecimal MD5
digest of the UTF-8 bytes of the input. -/
def md5Hex (input : String) : String :=
  String.mk ((md5Bytes (utf8Bytes input)).flatMap byteHex)

example : md5Hex "" = "d41d8cd98f00b204e9800998ecf8427e" := by decide
example : md5Hex "abc" = "900150983cd24fb0d6963f7d28e17f72" := by decide

/-! ### Signature -/

structure SignParams where
  body : String
  nonce : String
  secretKey : String
  timestamp : String
  url : String

/-- `buildUpgradeLinkSignature` from `vite.config.ts` (lines 11–21); the
body segment is included exactly when `params.body` is truthy, i.e.
non-empty. -/
def buildUpgradeLinkSignature (params : SignParams) : String :=
  let bodyPart := if params.body = "" then "" else "body=" ++ params.body ++ "&"
  let signStr := bodyPart ++ "nonce=" ++ params.nonce ++ "&secretKey=" ++
    params.secretKey ++ "&timestamp=" ++ params.timestamp ++ "&url=" ++ params.url
  md5Hex signStr

example :
    buildUpgradeLinkSignature ⟨"", "n", "s", "t", "u"⟩ =
      "6f28c4e831bf1983c620064ab867aa80" := by decide

/-! ### Miscellaneous JavaScript built-ins used by the handlers -/

def upperHexDigit (n : Nat) : Char :=
  "0123456789ABCDEF".data.getD n '0'

/-- Characters `encodeURIComponent` leaves unescaped. -/
def isUriUnreserved (c : Char) : Bool :=
  c.isAlpha || c.isDigit || "-_.!~*\x27()".data.contains c

/-- `encodeURIComponent`: unreserved characters kept, every other character
percent-encoded byte-by-byte from its UTF-8 encoding, uppercase hex. -/
def encodeURIComponent (s : String) : String :=
  String.mk (s.data.flatMap fun c =>
    if isUriUnreserved c then [c]
    else (utf8EncodeCharNat c).flatMap fun b =>
      ['%', upperHexDigit (b / 16 % 16), upperHexDigit (b % 16)])

/-- `uuid.replaceAll(HYPHEN, EMPTY)`. -/
def removeHyphens (s : String) : String :=
  String.mk (s.data.filter fun c => c ≠ '-')

/-! ### JSON values, property access, spread, and `JSON.stringify` -/

/-! A parsed JSON value. Numbers carry the decimal literal `JSON.stringify`
renders for them, since the handlers never do arithmetic on them. Arrays
and objects are mutual inductives (rather than `List`-nested) so that the
serializer is a structural recursion the kernel can evaluate. -/
mutual
inductive JsVal where
  | null : JsVal
  | bool : Bool → JsVal
  | num : String → JsVal
  | str : String → JsVal
  | arr : JsArr → JsVal
  | obj : JsObj → JsVal
inductive JsArr where
  | nil : JsArr
  | cons : JsVal → JsArr → JsArr
inductive JsObj where
  | nil : JsObj
  | cons : String → JsVal → JsObj → JsObj
end

def JsArr.toList : JsArr → List JsVal
  | .nil => []
  | .cons v t => v :: t.toList

def JsObj.toList : JsObj → List (String × JsVal)
  | .nil => []
  | .cons k v t => (k, v) :: t.toList

def JsObj.ofList : List (String × JsVal) → JsObj
  | [] => .nil
  | (k, v) :: t => .cons k v (JsObj.ofList t)

/-- String escaping of `JSON.stringify`. -/
def jsonEscapeChar (c : Char) : List Char :=
  if c = '\x22' then ['\\', '\x22']
  else if c = '\\' then ['\\', '\\']
  else if c.toNat = 8 then ['\\', 'b']
  else if c.toNat = 9 then ['\\', 't']
  else if c.toNat = 10 then ['\\', 'n']
  else if c.toNat = 12 then ['\\', 'f']
  else if c.toNat = 13 then ['\\', 'r']
  else if c.toNat < 32 then '\\' :: 'u' :: '0' :: '0' :: byteHex c.toNat
  else [c]

/-- A double-quoted, escaped JSON string literal. -/
def jsonQuote (s : String) : String :=
  "\x22" ++ String.mk (s.data.flatMap jsonEscapeChar) ++ "\x22"

def commaJoin (l : List String) : String :=
  match l with
  | [] => ""
  | x :: t => t.foldl (fun a b => a ++ "," ++ b) x

/-! `JSON.stringify` on a parsed value, with the comma-separated renderings
of array elements and object members as mutual helpers. -/
mutual
def jsonStringify : JsVal → String
  | .null => "null"
  | .bool b => if b then "true" else "false"
  | .num lit => lit
  | .str s => jsonQuote s
  | .arr xs => "[" ++ jsonItems xs ++ "]"
  | .obj fs => "\x7b" ++ jsonMembers fs ++ "\x7d"
termination_by structural v => v

def jsonItems : JsArr → String
  | .nil => ""
  | .cons v .nil => jsonStringify v
  | .cons v (.cons w t) => jsonStringify v ++ "," ++ jsonItems (.cons w t)
termination_by structural a => a

def jsonMembers : JsObj → String
  | .nil => ""
  | .cons k v .nil => jsonQuote k ++ ":" ++ jsonStringify v
  | .cons k v (.cons k2 w t) =>
    jsonQuote k ++ ":" ++ jsonStringify v ++ "," ++ jsonMembers (.cons k2 w t)
termination_by structural o => o
end

/-- Own enumerable properties, as produced by object spread `\x7b...v\x7d`:
objects contribute their fields, strings and arrays their indexed elements,
primitives nothing. -/
def jsEntries : JsVal → List (String × JsVal)
  | .obj fs => fs.toList
  | .arr xs => xs.toList.enum.map fun p => (toString p.1, p.2)
  | .str s => s.data.enum.map fun p => (toString p.1, JsVal.str (String.mk [p.2]))
  | _ => []

/-- Property read `v.k` on a non-null value (`none` = `undefined`). -/
def jsGetProp (v : JsVal) (k : String) : Option JsVal :=
  (jsEntries v).lookup k

/-- Zero test for a JSON number literal: all mantissa digits are 0.
(Floating-point underflow of tiny nonzero literals is out of scope.) -/
def numLitZero (lit : String) : Bool :=
  (lit.data.takeWhile fun c => c ≠ 'e' && c ≠ 'E').all fun c =>
    !c.isDigit || c = '0'

/-- JavaScript truthiness of a parsed JSON value. -/
def jsTruthy : JsVal → Bool
  | .null => false
  | .bool b => b
  | .num lit => !numLitZero lit
  | .str s => s ≠ ""
  | .arr _ => true
  | .obj _ => true

/-- Property assignment in an object literal `\x7b...fs, k: v\x7d`: an existing
key keeps its position and gets the new value, a new key is appended. -/
def mergeProp (fs : List (String × JsVal)) (k : String) (v : JsVal) :
    List (String × JsVal) :=
  if (fs.map Prod.fst).contains k then
    fs.map fun kv => if kv.1 = k then (k, v) else kv
  else fs ++ [(k, v)]

example :
    jsonStringify (.obj (JsObj.ofList [("appKey", .str "demo"), ("n", .num "3")])) =
      "\x7b\x22appKey\x22:\x22demo\x22,\x22n\x22:3\x7d" := by decide

/-! ### The two gateway handlers -/

/-- The environment variables the handlers read. -/
structure EnvConfig where
  appKey : Option String
  accessKey : Option String
  secretKey : Option String

/-- The observable parts of the upstream `fetch` response the handlers use. -/
structure UpstreamResponse where
  status : Nat
  contentType : Option String
  text : String

/-- The outbound request the handler passes to `fetch`. -/
structure OutboundRequest where
  method : String
  path : String
  headers : List (String × String)
  body : String

/-- The response written to the inbound connection. -/
structure HttpResponse where
  status : Nat
  contentType : String
  body : String

/-- What one middleware invocation does: the inbound response, and the
outbound request (if the handler reached the `fetch` call). -/
structure GatewayOutcome where
  resp : HttpResponse
  outbound : Option OutboundRequest

def jsonCT : String := "application/json; charset=utf-8"

/-- Serialization of the fixed error envelope the handlers write. -/
def errEnvelope (code : Nat) (msg : String) : String :=
  jsonStringify (.obj (JsObj.ofList
    [("code", .num (toString code)), ("msg", .str msg),
     ("traceId", .str ""), ("docs", .str "")]))

def msgMissingAppKeyStats : String :=
  "参数缺失: appKey（请在 .env 配置 UPGRADELINK_APP_KEY 或请求带 appKey）"

def msgMissingAppKeyReport : String :=
  "参数缺失: appKey（请在 .env 配置 UPGRADELINK_APP_KEY 或请求体带 appKey）"

def msgMissingConfig : String :=
  "缺少服务端签名配置：UPGRADELINK_ACCESS_KEY / UPGRADELINK_SECRET_KEY（请在 .env 填正确值）"

/-- The message of the `TypeError` thrown by reading `.appKey` of `null`. -/
def msgNullAppKey : String :=
  "Cannot read properties of null (reading \x27appKey\x27)"

/-- The shared tail of both handlers (lines 113–116 / 218–221 and the
`catch` clause): await the upstream call on the outbound request and relay
status, content type (defaulted when absent), and body text; a thrown
`fetch` exception becomes the 500 envelope carrying the exception text. -/
def relayOutcome (o : OutboundRequest) (r : Except String UpstreamResponse) :
    GatewayOutcome :=
  match r with
  | .ok u => ⟨⟨u.status, u.contentType.getD jsonCT, u.text⟩, some o⟩
  | .error e => ⟨⟨500, jsonCT, errEnvelope 500 e⟩, some o⟩

/-- `upgradeLinkStatsProxy` middleware from `vite.config.ts` (lines 49–132).
Inputs: the parsed `appKey` query parameter (`none` when absent from the
query string), the environment, the current date, the `randomUUID()` value,
and the `fetch` collaborator. -/
def upgradeLinkStatsProxy (env : EnvConfig) (appKeyParam : Option String)
    (now : JsDate) (uuid : String)
    (upstream : OutboundRequest → Except String UpstreamResponse) :
    GatewayOutcome :=
  let appKey := appKeyParam.getD (env.appKey.getD "")
  let accessKey := normalizeEnvValue env.accessKey
  let secretKey := normalizeEnvValue env.secretKey
  if appKey = "" then
    ⟨⟨400, jsonCT, errEnvelope 400002 msgMissingAppKeyStats⟩, none⟩
  else if accessKey = "" ∨ secretKey = "" then
    ⟨⟨500, jsonCT, errEnvelope 500 msgMissingConfig⟩, none⟩
  else
    let upstreamPath := "/v1/app/statistics/info?appKey=" ++ encodeURIComponent appKey
    let timestamp := formatRfc3339Local now
    let nonce := removeHyphens uuid
    let signature := buildUpgradeLinkSignature
      ⟨"", nonce, secretKey, timestamp, upstreamPath⟩
    let o : OutboundRequest :=
      ⟨"GET", upstreamPath,
        [("X-Timestamp", timestamp), ("X-Nonce", nonce),
         ("X-AccessKey", accessKey), ("X-Signature", signature),
         ("Accept", "application/json")], ""⟩
    relayOutcome o (upstream o)

/-- The `appKey` resolution of the report handler: the parsed body property
unless it is absent or `null` (nullish coalescing), falling back to the
environment value and then the empty string. -/
def reportAppKeyVal (jsonBody : JsVal) (env : EnvConfig) : JsVal :=
  match jsGetProp jsonBody "appKey" with
  | some JsVal.null => JsVal.str (env.appKey.getD "")
  | none => JsVal.str (env.appKey.getD "")
  | some v => v

/-- Line 192: the body-supplied timestamp — the trimmed `timestamp` property
when it is a string (the conditional there yields the trimmed value when
that is non-empty and the empty string otherwise, which coincides with
plain trimming), and the empty string for a missing or non-string
property. -/
def reportBodyTimestamp (jsonBody : JsVal) : String :=
  match jsGetProp jsonBody "timestamp" with
  | some (JsVal.str t) => jsTrimStr t
  | _ => ""

/-- Line 175: the parsed request body — an empty object for an empty
(trimmed) body text, otherwise whatever `JSON.parse` returns. -/
def reportParsedBody (parseJson : String → Except String JsVal)
    (rawBody : String) : Except String JsVal :=
  if rawBody = "" then .ok (.obj .nil) else parseJson rawBody

/-- Lines 192–216: the outbound request of the report handler for a parsed
(non-`null`) body that passed the appKey check: timestamp from the body if
its trim is non-empty else freshly formatted, body re-serialized with
`appKey` and `timestamp` merged in, signature over that serialized body and
the fixed path. -/
def reportOutboundRequest (env : EnvConfig) (jsonBody : JsVal) (now : JsDate)
    (uuid : String) : OutboundRequest :=
  let accessKey := normalizeEnvValue env.accessKey
  let secretKey := normalizeEnvValue env.secretKey
  let appKeyVal := reportAppKeyVal jsonBody env
  let bodyTimestamp := reportBodyTimestamp jsonBody
  let timestamp :=
    if bodyTimestamp = "" then formatRfc3339Local now else bodyTimestamp
  let requestBody := jsonStringify (.obj (JsObj.ofList
    (mergeProp (mergeProp (jsEntries jsonBody) "appKey" appKeyVal)
      "timestamp" (JsVal.str timestamp))))
  let upstreamPath := "/v1/app/report"
  let nonce := removeHyphens uuid
  let signature := buildUpgradeLinkSignature
    ⟨requestBody, nonce, secretKey, timestamp, upstreamPath⟩
  ⟨"POST", upstreamPath,
    [("Content-Type", "application/json"), ("X-Timestamp", timestamp),
     ("X-Nonce", nonce), ("X-AccessKey", accessKey),
     ("X-Signature", signature), ("Accept", "application/json")],
    requestBody⟩

/-- Lines 177–221 of the report handler, after parsing: the `TypeError` of
reading `.appKey` on a `null` body, the appKey presence check, then the
signed outbound call and relay. -/
def reportWithBody (env : EnvConfig) (jsonBody : JsVal) (now : JsDate)
    (uuid : String)
    (upstream : OutboundRequest → Except String UpstreamResponse) :
    GatewayOutcome :=
  match jsonBody with
  | JsVal.null => ⟨⟨500, jsonCT, errEnvelope 500 msgNullAppKey⟩, none⟩
  | _ =>
    if ¬ jsTruthy (reportAppKeyVal jsonBody env) then
      ⟨⟨400, jsonCT, errEnvelope 400002 msgMissingAppKeyReport⟩, none⟩
    else
      let o := reportOutboundRequest env jsonBody now uuid
      relayOutcome o (upstream o)

/-- `upgradeLinkAppReportProxy` middleware from `vite.config.ts`
(lines 134–237). `method` is `req.method`, `rawBodyInput` the UTF-8 text of
the received chunks, `parseJson` the `JSON.parse` collaborator (`.error` =
the message of the thrown `SyntaxError`). -/
def upgradeLinkAppReportProxy (env : EnvConfig) (method : Option String)
    (rawBodyInput : String) (now : JsDate) (uuid : String)
    (parseJson : String → Except String JsVal)
    (upstream : OutboundRequest → Except String UpstreamResponse) :
    GatewayOutcome :=
  if jsToUpperCase (method.getD "") ≠ "POST" then
    ⟨⟨405, jsonCT, errEnvelope 405 "Method Not Allowed"⟩, none⟩
  else
    let accessKey := normalizeEnvValue env.accessKey
    let secretKey := normalizeEnvValue env.secretKey
    if accessKey = "" ∨ secretKey = "" then
      ⟨⟨500, jsonCT, errEnvelope 500 msgMissingConfig⟩, none⟩
    else
      let rawBody := jsTrimStr rawBodyInput
      match reportParsedBody parseJson rawBody with
      | .error e => ⟨⟨500, jsonCT, errEnvelope 500 e⟩, none⟩
      | .ok jsonBody => reportWithBody env jsonBody now uuid upstream

/-! ### Specification-side definitions (transcribed from the claim texts,
to be compared against the code-side definitions above) -/

/-- The canonical signing string exactly as claim C1 words it: the segment
`body=<body>&` present if and only if `body` is non-empty, followed by the
fixed `nonce/secretKey/timestamp/url` tail. -/
def specCanonicalString (p : SignParams) : String :=
  (if p.body ≠ "" then "body=" ++ p.body ++ "&" else "") ++
    "nonce=" ++ p.nonce ++ "&secretKey=" ++ p.secretKey ++
    "&timestamp=" ++ p.timestamp ++ "&url=" ++ p.url

/-- Quote stripping exactly as claim C3 words it: one *matching pair* of
leading/trailing quotes; a leading quote is removed only together with a
matching trailing quote. -/
def stripQuotesPaired (l : List Char) : List Char :=
  match l with
  | [] => []
  | c :: t =>
    match t.reverse with
    | [] => c :: t
    | d :: r => if isQuoteChar c && c = d then r.reverse else c :: t

/-- Credential normalization exactly as claim C3 states it (with the
matching-pair quote stripping). -/
def specNormalizeC3 (raw : String) : String :=
  let value := jsTrimL raw.data
  if value.isEmpty then ""
  else
    let sq := stripQuotesPaired value
    String.mk (jsTrimL ((regexKeyCapture sq).getD sq))

/-- Quote stripping as the amended claim C3 words it: one leading quote is
removed if present and one trailing quote is removed if present,
independently of each other. -/
def stripQuotesIndep (l : List Char) : List Char :=
  let l1 := dropLeadingQuote l
  if (l1.getLast?.map isQuoteChar).getD false then l1.dropLast else l1

/-- Credential normalization as amended claim C3 states it. -/
def specNormalizeC3Amended (raw : String) : String :=
  let value := jsTrimL raw.data
  if value.isEmpty then ""
  else
    let sq := stripQuotesIndep value
    String.mk (jsTrimL ((regexKeyCapture sq).getD sq))

/-! ### Helper lemmas -/

lemma flatMap_byteHex_length (bs : List Nat) :
    (bs.flatMap byteHex).length = 2 * bs.length := by
  induction bs with
  | nil => rfl
  | cons b t ih => simp [byteHex, ih]; ring

lemma md5Bytes_length (m : List Nat) : (md5Bytes m).length = 16 := by
  simp [md5Bytes, bytesOfWordLE]

lemma hexDigit_mem (n : Nat) : hexDigit n ∈ hexLowerChars := by
  by_cases h : n < 16
  · interval_cases n <;> decide
  · have h16 : hexLowerChars.length ≤ n := by
      have : hexLowerChars.length = 16 := by decide
      omega
    rw [hexDigit, List.getD_eq_default]
    · decide
    · exact h16

lemma flatMap_byteHex_hex (bs : List Nat) :
    ((bs.flatMap byteHex).all fun c => hexLowerChars.contains c) = true := by
  rw [List.all_eq_true]
  intro c hc
  rw [List.mem_flatMap] at hc
  obtain ⟨b, _, hb⟩ := hc
  simp only [byteHex, List.mem_cons, List.not_mem_nil, or_false] at hb
  have hmem : c ∈ hexLowerChars := by
    rcases hb with h | h <;> (subst h; exact hexDigit_mem _)
  simpa using hmem

lemma md5Hex_length (s : String) : (md5Hex s).length = 32 := by
  have h1 := flatMap_byteHex_length (md5Bytes (utf8Bytes s))
  have h2 := md5Bytes_length (utf8Bytes s)
  simp [md5Hex, String.length, h1, h2]

lemma md5Hex_chars (s : String) :
    ((md5Hex s).data.all fun c => hexLowerChars.contains c) = true := by
  simp [md5Hex]
  have := flatMap_byteHex_hex (md5Bytes (utf8Bytes s))
  simpa using this

/-! ### Claim C1 -/

/-- C1: for every input record, the computed signature equals the lowercase
hexadecimal MD5 digest of the UTF-8 bytes of the canonical string
`body=<body>&` (present iff `body` is non-empty) followed by
`nonce=<n>&secretKey=<s>&timestamp=<t>&url=<u>`; `md5Hex` is by construction
that digest, and the output is 32 lowercase hex characters. -/
theorem c1_signature_is_md5_of_canonical (p : SignParams) :
    buildUpgradeLinkSignature p = md5Hex (specCanonicalString p) ∧
    (buildUpgradeLinkSignature p).length = 32 ∧
    ((buildUpgradeLinkSignature p).data.all fun c =>
      hexLowerChars.contains c) = true := by
  have heq : buildUpgradeLinkSignature p = md5Hex (specCanonicalString p) := by
    by_cases h : p.body = "" <;>
      simp [buildUpgradeLinkSignature, specCanonicalString, h]
  refine ⟨heq, ?_, ?_⟩
  · rw [heq]; exact md5Hex_length _
  · rw [heq]; exact md5Hex_chars _

/-! ### Claim C3 -/

/-- C3 counterexample: on the input consisting of a double quote followed by
`abc` (a leading quote with no trailing quote), the code strips the leading
quote, while the claimed normalization (leading quote removed only together
with a matching trailing quote) keeps it. -/
theorem c3_counterexample :
    normalizeEnvValue (some "\x22abc") = "abc" ∧
    specNormalizeC3 "\x22abc" = "\x22abc" ∧
    normalizeEnvValue (some "\x22abc") ≠ specNormalizeC3 "\x22abc" := by
  refine ⟨by decide, by decide, by decide⟩

lemma dropTrailingQuote_eq (l1 : List Char) :
    dropTrailingQuote l1 =
      if (l1.getLast?.map isQuoteChar).getD false then l1.dropLast else l1 := by
  rcases h : l1.reverse with _ | ⟨c, t⟩
  · have hnil : l1 = [] := by simpa using congrArg List.reverse h
    subst hnil
    simp [dropTrailingQuote]
  · have hl : l1 = t.reverse ++ [c] := by
      have := congrArg List.reverse h
      simpa using this
    subst hl
    rw [dropTrailingQuote]
    rw [List.reverse_append]
    by_cases hq : isQuoteChar c = true <;>
      simp [hq, List.getLast?_concat, List.dropLast_concat]

lemma stripQuotesJs_eq_indep (l : List Char) :
    stripQuotesJs l = stripQuotesIndep l := by
  rw [stripQuotesJs, stripQuotesIndep, dropTrailingQuote_eq]

/-- C3 amended: credential normalization proceeds as the claim states except
that the quote stripping removes one leading quote if present and one
trailing quote if present, independently (they need not match and one may be
removed without the other). -/
theorem c3_amended_normalization (raw : Option String) :
    normalizeEnvValue raw = specNormalizeC3Amended (raw.getD "") := by
  simp only [normalizeEnvValue, specNormalizeC3Amended, stripQuotesJs_eq_indep]

/-! ### Claim C4 -/

/-- C4 counterexample: normalization is not idempotent; on input `''x''`
(doubled single quotes) the first pass strips the outer quote pair and the
second pass strips the newly exposed pair. -/
theorem c4_counterexample :
    normalizeEnvValue (some (normalizeEnvValue (some "\x27\x27x\x27\x27"))) ≠
      normalizeEnvValue (some "\x27\x27x\x27\x27") := by
  decide

lemma jsTrimL_idem (l : List Char) : jsTrimL (jsTrimL l) = jsTrimL l := by
  unfold jsTrimL
  have hinner :
      List.dropWhile isJsWs (List.rdropWhile isJsWs (List.dropWhile isJsWs l)) =
        List.rdropWhile isJsWs (List.dropWhile isJsWs l) := by
    rcases hr : List.rdropWhile isJsWs (List.dropWhile isJsWs l) with _ | ⟨c, r⟩
    · simp
    · obtain ⟨t, ht⟩ := List.rdropWhile_prefix isJsWs (List.dropWhile isJsWs l)
      rw [hr] at ht
      have hx : List.dropWhile isJsWs l = c :: (r ++ t) := by
        rw [← ht]
        simp
      have hpc : ¬ isJsWs c = true := by
        intro hc
        have hidem := List.dropWhile_idempotent isJsWs l
        rw [hx, List.dropWhile_cons, if_pos hc] at hidem
        have hle := (List.dropWhile_suffix (l := r ++ t) isJsWs).length_le
        have hlen := congrArg List.length hidem
        simp only [List.length_cons] at hlen
        omega
      rw [List.dropWhile_cons, if_neg hpc]
  rw [hinner, List.rdropWhile_idempotent]

lemma normalizeEnvValue_trim_fixed (raw : Option String) :
    jsTrimL (normalizeEnvValue raw).data = (normalizeEnvValue raw).data := by
  rw [normalizeEnvValue]
  by_cases h : (jsTrimL (raw.getD "").data).isEmpty = true
  · simp only [h, if_pos]
    rfl
  · simp only [h, if_neg, Bool.not_eq_true]
    exact jsTrimL_idem _

/-- C4 amended: credential normalization is idempotent for every input whose
normalized value is unchanged by quote stripping and does not match the
`AccessKey=`/`SecretKey=` prefix pattern (the counterexample shows a second
quote layer or a second prefix layer gets stripped by the second pass). -/
theorem c4_amended_idempotent (raw : Option String)
    (hq : stripQuotesJs (normalizeEnvValue raw).data = (normalizeEnvValue raw).data)
    (hk : regexKeyCapture (normalizeEnvValue raw).data = none) :
    normalizeEnvValue (some (normalizeEnvValue raw)) = normalizeEnvValue raw := by
  conv_lhs => rw [normalizeEnvValue]
  simp only [Option.getD_some]
  rw [normalizeEnvValue_trim_fixed raw]
  by_cases h : ((normalizeEnvValue raw).data).isEmpty = true
  · simp only [h, if_pos]
    have : (normalizeEnvValue raw).data = [] := by
      simpa [List.isEmpty_iff] using h
    apply String.ext
    simp [this]
  · simp only [h, if_neg, Bool.not_eq_true]
    rw [hq, hk]
    simp only [Option.getD_none]
    rw [normalizeEnvValue_trim_fixed raw]

/-- C4 amended witness: a plain value is a fixed point of normalization. -/
theorem c4_amended_idempotent_witness :
    normalizeEnvValue (some (normalizeEnvValue (some " abc "))) =
      normalizeEnvValue (some " abc ") :=
  c4_amended_idempotent (some " abc ") (by decide) (by decide)

/-! ### Claim C7 -/

/-- Two-digit zero-padded decimal rendering, as the claim words it. -/
def twoDigit (n : Nat) : String :=
  if n < 10 then "0" ++ toString n else toString n

/-- The timestamp format exactly as claim C7 words it:
`YYYY-MM-DDTHH:mm:ss` followed by the local UTC offset as `±HH:mm`, all
two-digit fields zero-padded, no fractional seconds. -/
def specRfc3339 (d : JsDate) : String :=
  let offset : Int := -d.timezoneOffset
  toString d.fullYear ++ "-" ++ twoDigit (d.month + 1) ++ "-" ++ twoDigit d.date ++
    "T" ++ twoDigit d.hours ++ ":" ++ twoDigit d.minutes ++ ":" ++ twoDigit d.seconds ++
    (if 0 ≤ offset then "+" else "-") ++
    twoDigit (offset.natAbs / 60) ++ ":" ++ twoDigit (offset.natAbs % 60)

lemma pad2_eq_twoDigit (n : Nat) (h : n < 100) : pad2 n = twoDigit n := by
  interval_cases n <;> rfl

/-- C7: the timestamp formatter renders the local wall-clock fields as
`YYYY-MM-DDTHH:mm:ss±HH:mm` with zero-padded two-digit fields; in
particular the local time 2026-03-01 14:05:09 at offset UTC+08:00
(a `getTimezoneOffset()` of −480 minutes) renders as
`2026-03-01T14:05:09+08:00`. -/
theorem c7_rfc3339_format (d : JsDate) (hm : d.month + 1 ≤ 12) (hd : d.date ≤ 31)
    (hh : d.hours < 24) (hmi : d.minutes < 60) (hs : d.seconds < 60)
    (ho : d.timezoneOffset.natAbs ≤ 1440) :
    formatRfc3339Local d = specRfc3339 d ∧
    formatRfc3339Local ⟨2026, 2, 1, 14, 5, 9, -480⟩ = "2026-03-01T14:05:09+08:00" := by
  constructor
  · have habs : (-d.timezoneOffset).natAbs = d.timezoneOffset.natAbs :=
      Int.natAbs_neg _
    have hdiv : (-d.timezoneOffset).natAbs / 60 < 100 := by
      have h1 : (-d.timezoneOffset).natAbs / 60 ≤ 1440 / 60 :=
        Nat.div_le_div_right (by omega)
      omega
    have hmod : (-d.timezoneOffset).natAbs % 60 < 100 := by
      have := Nat.mod_lt (-d.timezoneOffset).natAbs (y := 60) (by omega)
      omega
    have h1 := pad2_eq_twoDigit (d.month + 1) (by omega)
    have h2 := pad2_eq_twoDigit d.date (by omega)
    have h3 := pad2_eq_twoDigit d.hours (by omega)
    have h4 := pad2_eq_twoDigit d.minutes (by omega)
    have h5 := pad2_eq_twoDigit d.seconds (by omega)
    have h6 := pad2_eq_twoDigit _ hdiv
    have h7 := pad2_eq_twoDigit _ hmod
    simp only [formatRfc3339Local, specRfc3339, h1, h2, h3, h4, h5, h6, h7,
      ge_iff_le]
  · decide

/-- C7 witness at the concrete local time of the claim. -/
theorem c7_rfc3339_format_witness :
    formatRfc3339Local ⟨2026, 2, 1, 14, 5, 9, -480⟩ =
        specRfc3339 ⟨2026, 2, 1, 14, 5, 9, -480⟩ ∧
    formatRfc3339Local ⟨2026, 2, 1, 14, 5, 9, -480⟩ = "2026-03-01T14:05:09+08:00" :=
  c7_rfc3339_format ⟨2026, 2, 1, 14, 5, 9, -480⟩ (by decide) (by decide)
    (by decide) (by decide) (by decide) (by decide)

/-! ### Claim C5 -/

lemma relayOutcome_outbound (o : OutboundRequest)
    (r : Except String UpstreamResponse) :
    (relayOutcome o r).outbound = some o := by
  cases r <;> rfl

lemma relayOutcome_resp_ok (o : OutboundRequest) (u : UpstreamResponse) :
    (relayOutcome o (.ok u)).resp = ⟨u.status, u.contentType.getD jsonCT, u.text⟩ :=
  rfl

/-- C5: the statistics handler takes the `MissingParameter` path (no
outbound call, HTTP 400) exactly when the appKey resolved through the
query parameter and the configured default is empty, in which case the
response is the fixed 400002 envelope regardless of the credentials (the
appKey check is decided first); with a non-empty appKey it takes the
`ServerMisconfigured` path (no outbound call, HTTP 500) exactly when a
normalized credential is empty, answering the fixed code-500 envelope. -/
theorem c5_stats_error_discipline (env : EnvConfig) (akp : Option String)
    (now : JsDate) (uuid : String)
    (up : OutboundRequest → Except String UpstreamResponse) :
    (((upgradeLinkStatsProxy env akp now uuid up).outbound = none ∧
      (upgradeLinkStatsProxy env akp now uuid up).resp.status = 400) ↔
        akp.getD (env.appKey.getD "") = "") ∧
    (akp.getD (env.appKey.getD "") = "" →
      (upgradeLinkStatsProxy env akp now uuid up).resp =
        ⟨400, jsonCT, errEnvelope 400002 msgMissingAppKeyStats⟩) ∧
    (akp.getD (env.appKey.getD "") ≠ "" →
      ((((upgradeLinkStatsProxy env akp now uuid up).outbound = none ∧
         (upgradeLinkStatsProxy env akp now uuid up).resp.status = 500) ↔
          (normalizeEnvValue env.accessKey = "" ∨
           normalizeEnvValue env.secretKey = "")) ∧
       ((normalizeEnvValue env.accessKey = "" ∨
         normalizeEnvValue env.secretKey = "") →
        (upgradeLinkStatsProxy env akp now uuid up).resp =
          ⟨500, jsonCT, errEnvelope 500 msgMissingConfig⟩))) := by
  simp only [upgradeLinkStatsProxy]
  split_ifs with h1 h2
  · exact ⟨by simp [h1], fun _ => rfl, fun hn => absurd h1 hn⟩
  · refine ⟨by simp [h1], fun hc => absurd hc h1, fun _ => ⟨by simp [h2], fun _ => rfl⟩⟩
  · refine ⟨?_, fun hc => absurd hc h1, fun _ => ⟨?_, fun hc => absurd hc h2⟩⟩
    · rw [relayOutcome_outbound]
      simp [h1]
    · rw [relayOutcome_outbound]
      simp [h2]

/-- C5 witness: with a non-empty appKey and a missing access key the
handler answers the 500 misconfiguration envelope without calling
upstream. -/
theorem c5_stats_error_discipline_witness :
    ((upgradeLinkStatsProxy ⟨none, none, some "sk"⟩ (some "demo")
        ⟨2026, 2, 1, 14, 5, 9, -480⟩ "u"
        (fun _ => Except.error "down")).outbound = none ∧
     (upgradeLinkStatsProxy ⟨none, none, some "sk"⟩ (some "demo")
        ⟨2026, 2, 1, 14, 5, 9, -480⟩ "u"
        (fun _ => Except.error "down")).resp.status = 500) ∧
    (upgradeLinkStatsProxy ⟨none, none, some "sk"⟩ (some "demo")
        ⟨2026, 2, 1, 14, 5, 9, -480⟩ "u"
        (fun _ => Except.error "down")).resp =
      ⟨500, jsonCT, errEnvelope 500 msgMissingConfig⟩ := by
  have h := (c5_stats_error_discipline ⟨none, none, some "sk"⟩ (some "demo")
    ⟨2026, 2, 1, 14, 5, 9, -480⟩ "u" (fun _ => Except.error "down")).2.2
      (by decide)
  exact ⟨h.1.mpr (Or.inl (by decide)), h.2 (Or.inl (by decide))⟩

/-! ### Claim C9 -/

/-- C9: the configured default appKey is substituted only when the query
parameter is absent: a present-but-empty `appKey=` parameter yields the
400/400002 envelope with no outbound call even when a default is
configured, while an absent parameter behaves exactly as if the default had
been passed. -/
theorem c9_empty_param_beats_default :
    (∀ (env : EnvConfig) (now : JsDate) (uuid : String)
        (up : OutboundRequest → Except String UpstreamResponse),
      (upgradeLinkStatsProxy env (some "") now uuid up).resp =
          ⟨400, jsonCT, errEnvelope 400002 msgMissingAppKeyStats⟩ ∧
        (upgradeLinkStatsProxy env (some "") now uuid up).outbound = none) ∧
    (∀ (env : EnvConfig) (now : JsDate) (uuid : String)
        (up : OutboundRequest → Except String UpstreamResponse),
      upgradeLinkStatsProxy env none now uuid up =
        upgradeLinkStatsProxy env (some (env.appKey.getD "")) now uuid up) := by
  constructor
  · intro env now uuid up
    exact ⟨rfl, rfl⟩
  · intro env now uuid up
    rfl

/-! ### Claim C2 -/

def headerLookup (hs : List (String × String)) (k : String) : Option String :=
  hs.lookup k

lemma reportWithBody_success (env : EnvConfig) (jb : JsVal) (now : JsDate)
    (uuid : String)
    (up : OutboundRequest → Except String UpstreamResponse)
    (o : OutboundRequest)
    (h : (reportWithBody env jb now uuid up).outbound = some o) :
    o = reportOutboundRequest env jb now uuid ∧
    reportWithBody env jb now uuid up = relayOutcome o (up o) := by
  by_cases hc : ¬ jsTruthy (reportAppKeyVal jb env) = true
  · cases jb <;> simp only [reportWithBody] at h <;>
      first
        | exact Option.noConfusion h
        | (rw [if_pos hc] at h
           exact Option.noConfusion h)
  · cases jb <;> simp only [reportWithBody] at h ⊢ <;>
      first
        | exact Option.noConfusion h
        | (rw [if_neg hc] at h ⊢
           rw [relayOutcome_outbound] at h
           cases h
           exact ⟨rfl, rfl⟩)

/-- The outbound request is self-consistently signed: its `X-Signature`
header is the signature computed over its own body, its own path, and its
own `X-Nonce`/`X-Timestamp` headers, keyed by the given secret. -/
def sigConsistent (o : OutboundRequest) (secret : String) : Prop :=
  headerLookup o.headers "X-Signature" =
    some (buildUpgradeLinkSignature
      ⟨o.body, (headerLookup o.headers "X-Nonce").getD "", secret,
       (headerLookup o.headers "X-Timestamp").getD "", o.path⟩)

/-- C2: whenever either handler issues an outbound request, the signature it
sends is computed over exactly the body string sent (empty for the GET) and
exactly the path appended to the upstream origin, together with the sent
nonce and timestamp headers and the normalized secret key. -/
theorem c2_signature_over_sent_bytes :
    (∀ (env : EnvConfig) (akp : Option String) (now : JsDate) (uuid : String)
        (up : OutboundRequest → Except String UpstreamResponse)
        (o : OutboundRequest),
      (upgradeLinkStatsProxy env akp now uuid up).outbound = some o →
        sigConsistent o (normalizeEnvValue env.secretKey)) ∧
    (∀ (env : EnvConfig) (methd : Option String) (raw : String) (now : JsDate)
        (uuid : String) (parseJson : String → Except String JsVal)
        (up : OutboundRequest → Except String UpstreamResponse)
        (o : OutboundRequest),
      (upgradeLinkAppReportProxy env methd raw now uuid parseJson up).outbound =
          some o →
        sigConsistent o (normalizeEnvValue env.secretKey)) := by
  constructor
  · intro env akp now uuid up o h
    simp only [upgradeLinkStatsProxy] at h
    by_cases h1 : akp.getD (env.appKey.getD "") = ""
    · rw [if_pos h1] at h
      exact Option.noConfusion h
    · rw [if_neg h1] at h
      by_cases h2 : normalizeEnvValue env.accessKey = "" ∨
          normalizeEnvValue env.secretKey = ""
      · rw [if_pos h2] at h
        exact Option.noConfusion h
      · rw [if_neg h2] at h
        rw [relayOutcome_outbound] at h
        cases h
        rfl
  · intro env methd raw now uuid parseJson up o h
    simp only [upgradeLinkAppReportProxy] at h
    by_cases h1 : jsToUpperCase (methd.getD "") ≠ "POST"
    · rw [if_pos h1] at h
      exact Option.noConfusion h
    · rw [if_neg h1] at h
      by_cases h2 : normalizeEnvValue env.accessKey = "" ∨
          normalizeEnvValue env.secretKey = ""
      · rw [if_pos h2] at h
        exact Option.noConfusion h
      · rw [if_neg h2] at h
        split at h
        · exact Option.noConfusion h
        · obtain ⟨ho, _⟩ := reportWithBody_success _ _ _ _ _ _ h
          subst ho
          rfl

/-! Shared concrete scenario used by the witnesses: valid credentials, a
POST body carrying `appKey: demo`, and an upstream answering 200. -/

def demoEnv : EnvConfig := ⟨none, some "ak", some "sk"⟩

def demoDate : JsDate := ⟨2026, 2, 1, 14, 5, 9, -480⟩

def demoBodyText : String := "\x7b\x22appKey\x22:\x22demo\x22\x7d"

def demoParse : String → Except String JsVal :=
  fun _ => .ok (.obj (JsObj.ofList [("appKey", .str "demo")]))

def demoUpstreamBody : String := "\x7b\x22code\x22:0,\x22msg\x22:\x22ok\x22\x7d"

def demoUpstream : OutboundRequest → Except String UpstreamResponse :=
  fun _ => .ok ⟨200, some "application/json", demoUpstreamBody⟩

def demoStatsOutbound : OutboundRequest :=
  ((upgradeLinkStatsProxy demoEnv (some "demo") demoDate "u-1"
    demoUpstream).outbound).getD ⟨"", "", [], ""⟩

def demoReportOutbound : OutboundRequest :=
  ((upgradeLinkAppReportProxy demoEnv (some "POST") demoBodyText demoDate "u-1"
    demoParse demoUpstream).outbound).getD ⟨"", "", [], ""⟩

/-- C2 witness: both handlers reach the outbound call in the demo scenario
and their sent requests are self-consistently signed. -/
theorem c2_signature_over_sent_bytes_witness :
    sigConsistent demoStatsOutbound (normalizeEnvValue (some "sk")) ∧
    sigConsistent demoReportOutbound (normalizeEnvValue (some "sk")) :=
  ⟨c2_signature_over_sent_bytes.1 demoEnv (some "demo") demoDate "u-1"
      demoUpstream demoStatsOutbound rfl,
   c2_signature_over_sent_bytes.2 demoEnv (some "POST") demoBodyText demoDate
      "u-1" demoParse demoUpstream demoReportOutbound rfl⟩

/-! ### Claim C8 -/

/-- C8: on a successful upstream call both handlers relay the upstream
status, the upstream content type (defaulting to
`application/json; charset=utf-8` only when the upstream response carries
none), and the upstream body text unchanged. -/
theorem c8_relay_upstream_response :
    (∀ (env : EnvConfig) (akp : Option String) (now : JsDate) (uuid : String)
        (up : OutboundRequest → Except String UpstreamResponse)
        (o : OutboundRequest) (u : UpstreamResponse),
      (upgradeLinkStatsProxy env akp now uuid up).outbound = some o →
        up o = .ok u →
        (upgradeLinkStatsProxy env akp now uuid up).resp =
          ⟨u.status, u.contentType.getD jsonCT, u.text⟩) ∧
    (∀ (env : EnvConfig) (methd : Option String) (raw : String) (now : JsDate)
        (uuid : String) (parseJson : String → Except String JsVal)
        (up : OutboundRequest → Except String UpstreamResponse)
        (o : OutboundRequest) (u : UpstreamResponse),
      (upgradeLinkAppReportProxy env methd raw now uuid parseJson up).outbound =
          some o →
        up o = .ok u →
        (upgradeLinkAppReportProxy env methd raw now uuid parseJson up).resp =
          ⟨u.status, u.contentType.getD jsonCT, u.text⟩) := by
  constructor
  · intro env akp now uuid up o u h hu
    simp only [upgradeLinkStatsProxy] at h ⊢
    by_cases h1 : akp.getD (env.appKey.getD "") = ""
    · rw [if_pos h1] at h
      exact Option.noConfusion h
    · rw [if_neg h1] at h ⊢
      by_cases h2 : normalizeEnvValue env.accessKey = "" ∨
          normalizeEnvValue env.secretKey = ""
      · rw [if_pos h2] at h
        exact Option.noConfusion h
      · rw [if_neg h2] at h ⊢
        rw [relayOutcome_outbound] at h
        cases h
        rw [hu]
        exact relayOutcome_resp_ok _ _
  · intro env methd raw now uuid parseJson up o u h hu
    simp only [upgradeLinkAppReportProxy] at h ⊢
    by_cases h1 : jsToUpperCase (methd.getD "") ≠ "POST"
    · rw [if_pos h1] at h
      exact Option.noConfusion h
    · rw [if_neg h1] at h ⊢
      by_cases h2 : normalizeEnvValue env.accessKey = "" ∨
          normalizeEnvValue env.secretKey = ""
      · rw [if_pos h2] at h
        exact Option.noConfusion h
      · rw [if_neg h2] at h ⊢
        split
        · next e heq =>
            rw [heq] at h
            exact Option.noConfusion h
        · next jb heq =>
            rw [heq] at h
            obtain ⟨ho, hred⟩ := reportWithBody_success _ _ _ _ _ _ h
            rw [hred, hu]
            exact relayOutcome_resp_ok _ _

/-- C8 witness (Scenario C): a POST with body `appKey: demo`, valid
credentials, and an upstream answering 200 with the fixed body is relayed
with status 200 and that exact body text. -/
theorem c8_relay_upstream_response_witness :
    (upgradeLinkAppReportProxy demoEnv (some "POST") demoBodyText demoDate
        "u-1" demoParse demoUpstream).resp =
      ⟨200, "application/json", demoUpstreamBody⟩ :=
  c8_relay_upstream_response.2 demoEnv (some "POST") demoBodyText demoDate
    "u-1" demoParse demoUpstream demoReportOutbound
    ⟨200, some "application/json", demoUpstreamBody⟩ rfl rfl

/-! ### Claim C6 -/

/-- The parsed body used by the C6 counterexample: a `timestamp` field that
is a non-empty string carrying surrounding whitespace. -/
def c6Body : JsVal :=
  .obj (JsObj.ofList [("appKey", .str "demo"), ("timestamp", .str "  x  ")])

def c6Parse : String → Except String JsVal := fun _ => .ok c6Body

/-- C6 counterexample: the body supplies the non-empty string timestamp
`"  x  "`, but the handler signs and sends the trimmed value `"x"`, not
that exact string. -/
theorem c6_counterexample :
    ((upgradeLinkAppReportProxy demoEnv (some "POST") "\x7b\x7d" demoDate "u-1"
        c6Parse demoUpstream).outbound.map
      fun o => headerLookup o.headers "X-Timestamp") = some (some "x") ∧
    "x" ≠ "  x  " :=
  ⟨rfl, by decide⟩

/-- The timestamp choice as the amended claim C6 states it: the trimmed
body value whenever the `timestamp` field is a string whose trim is
non-empty, else a freshly formatted timestamp. -/
def specReportTimestamp (jb : JsVal) (now : JsDate) : String :=
  match jsGetProp jb "timestamp" with
  | some (JsVal.str t) =>
    if jsTrimStr t ≠ "" then jsTrimStr t else formatRfc3339Local now
  | _ => formatRfc3339Local now

lemma reportTimestamp_spec (jb : JsVal) (now : JsDate) :
    (if reportBodyTimestamp jb = "" then formatRfc3339Local now
     else reportBodyTimestamp jb) = specReportTimestamp jb now := by
  rw [reportBodyTimestamp, specReportTimestamp]
  rcases jsGetProp jb "timestamp" with _ | v
  · simp
  · cases v <;> simp

lemma reportOutboundRequest_timestamp (env : EnvConfig) (jb : JsVal)
    (now : JsDate) (uuid : String) :
    headerLookup (reportOutboundRequest env jb now uuid).headers "X-Timestamp" =
      some (if reportBodyTimestamp jb = "" then formatRfc3339Local now
        else reportBodyTimestamp jb) := rfl

lemma reportOutboundRequest_body (env : EnvConfig) (jb : JsVal) (now : JsDate)
    (uuid : String) :
    (reportOutboundRequest env jb now uuid).body =
      jsonStringify (.obj (JsObj.ofList
        (mergeProp (mergeProp (jsEntries jb) "appKey" (reportAppKeyVal jb env))
          "timestamp" (JsVal.str
            (if reportBodyTimestamp jb = "" then formatRfc3339Local now
             else reportBodyTimestamp jb))))) := rfl

/-- C6 amended: in the report handler, the timestamp used for signing and
for the re-serialized body is the *trimmed* value of the parsed body's
`timestamp` field whenever that field is a string whose trim is non-empty,
and a freshly generated timestamp otherwise. -/
theorem c6_amended_timestamp_choice (env : EnvConfig) (methd : Option String)
    (raw : String) (now : JsDate) (uuid : String)
    (parseJson : String → Except String JsVal)
    (up : OutboundRequest → Except String UpstreamResponse)
    (o : OutboundRequest) (jb : JsVal)
    (h : (upgradeLinkAppReportProxy env methd raw now uuid parseJson up).outbound =
      some o)
    (hp : reportParsedBody parseJson (jsTrimStr raw) = .ok jb) :
    headerLookup o.headers "X-Timestamp" = some (specReportTimestamp jb now) ∧
    o.body = jsonStringify (.obj (JsObj.ofList
      (mergeProp (mergeProp (jsEntries jb) "appKey" (reportAppKeyVal jb env))
        "timestamp" (JsVal.str (specReportTimestamp jb now))))) := by
  simp only [upgradeLinkAppReportProxy] at h
  by_cases h1 : jsToUpperCase (methd.getD "") ≠ "POST"
  · rw [if_pos h1] at h
    exact Option.noConfusion h
  · rw [if_neg h1] at h
    by_cases h2 : normalizeEnvValue env.accessKey = "" ∨
        normalizeEnvValue env.secretKey = ""
    · rw [if_pos h2] at h
      exact Option.noConfusion h
    · rw [if_neg h2] at h
      rw [hp] at h
      obtain ⟨ho, _⟩ := reportWithBody_success _ _ _ _ _ _ h
      subst ho
      rw [reportOutboundRequest_timestamp, reportOutboundRequest_body,
        reportTimestamp_spec]
      exact ⟨rfl, rfl⟩

def c6Outbound : OutboundRequest :=
  ((upgradeLinkAppReportProxy demoEnv (some "POST") "\x7b\x7d" demoDate "u-1"
    c6Parse demoUpstream).outbound).getD ⟨"", "", [], ""⟩

/-- C6 amended witness: for the body with timestamp `"  x  "` the sent
timestamp is the trimmed choice prescribed by the amended claim. -/
theorem c6_amended_timestamp_choice_witness :
    headerLookup c6Outbound.headers "X-Timestamp" =
        some (specReportTimestamp c6Body demoDate) ∧
    c6Outbound.body = jsonStringify (.obj (JsObj.ofList
      (mergeProp (mergeProp (jsEntries c6Body) "appKey"
          (reportAppKeyVal c6Body demoEnv))
        "timestamp" (JsVal.str (specReportTimestamp c6Body demoDate))))) :=
  c6_amended_timestamp_choice demoEnv (some "POST") "\x7b\x7d" demoDate "u-1"
    c6Parse demoUpstream c6Outbound c6Body rfl rfl

/-! ### Claim C10 -/

def c10ParseMsg : String := "Unexpected end of JSON input"

def c10Parse : String → Except String JsVal := fun _ => .error c10ParseMsg

/-- C10 counterexample: a whitespace-only request body is non-empty and is
not valid JSON (the parser rejects it), yet with no configured appKey the
handler answers 400/400002 — the body is trimmed to emptiness before
parsing, so no parse exception and no 500 arises. -/
theorem c10_counterexample :
    (upgradeLinkAppReportProxy ⟨none, some "ak", some "sk"⟩ (some "POST") " "
        demoDate "u-1" c10Parse demoUpstream).resp =
      ⟨400, jsonCT, errEnvelope 400002 msgMissingAppKeyReport⟩ ∧
    c10Parse " " = .error c10ParseMsg ∧ " " ≠ "" :=
  ⟨rfl, rfl, by decide⟩

/-- C10 amended: in the report POST operation with valid signing
configuration, a request body whose *trimmed* text is non-empty and is not
valid JSON is answered with HTTP 500 and the envelope
`(code 500, msg = parse exception text, traceId and docs empty)` — the same
shape as an upstream failure — and no outbound call is made (in particular
no 400 response arises). -/
theorem c10_amended_parse_failure (env : EnvConfig) (methd : Option String)
    (raw : String) (now : JsDate) (uuid : String)
    (parseJson : String → Except String JsVal)
    (up : OutboundRequest → Except String UpstreamResponse) (e : String)
    (h1 : jsToUpperCase (methd.getD "") = "POST")
    (h2 : normalizeEnvValue env.accessKey ≠ "")
    (h3 : normalizeEnvValue env.secretKey ≠ "")
    (h4 : jsTrimStr raw ≠ "")
    (h5 : parseJson (jsTrimStr raw) = .error e) :
    upgradeLinkAppReportProxy env methd raw now uuid parseJson up =
      ⟨⟨500, jsonCT, errEnvelope 500 e⟩, none⟩ := by
  have hp : reportParsedBody parseJson (jsTrimStr raw) = .error e := by
    rw [reportParsedBody, if_neg h4]
    exact h5
  simp only [upgradeLinkAppReportProxy]
  rw [if_neg (not_not_intro h1), if_neg (not_or.mpr ⟨h2, h3⟩), hp]

/-- C10 amended witness: a concrete malformed body is answered with the 500
envelope carrying the parse message, with no outbound call. -/
theorem c10_amended_parse_failure_witness :
    upgradeLinkAppReportProxy ⟨none, some "ak", some "sk"⟩ (some "POST") "bad"
        demoDate "u-1" c10Parse demoUpstream =
      ⟨⟨500, jsonCT, errEnvelope 500 c10ParseMsg⟩, none⟩ :=
  c10_amended_parse_failure ⟨none, some "ak", some "sk"⟩ (some "POST") "bad"
    demoDate "u-1" c10Parse demoUpstream c10ParseMsg (by decide) (by decide)
    (by decide) (by decide) rfl

end Ornata
